import Mathlib

/-!
# Verification of the sports-analytics ELT core

Shallow embedding of the cleaning/normalization, referential-integrity,
metric-derivation, validation, aggregation and persistence logic of the
pipeline (`src/transformation.py`, `src/analysis.py`, `src/db_utils.py`,
`src/validation.py`), together with proofs of the specified properties.

Conventions:
* polars DataFrames become `List` of row structures; a structurally
  empty (zero-column) frame or a missing dictionary key is modelled
  where needed by dedicated constructors.
* Nullable columns become `Option` values; polars/SQL three-valued
  logic over nullable columns is modelled explicitly (`plWhen`,
  `kleeneAnd`, ...).
* Machine floats of the source hold small statistics; they are modelled
  by `ℚ` (the source never relies on float rounding artefacts).
-/

namespace Scouting

/-! ## Deduplication: polars `unique(subset=key, keep="last")`

`transform_teams`, `transform_players`, `transform_matches`,
`transform_player_match_stats` and `transform_match_events` all collapse
duplicate natural keys with `unique(subset=..., keep="last")`: for every
key value occurring in the input, exactly the last row carrying it is
retained. -/

/-- polars `DataFrame.unique(subset=key columns, keep="last")`: keep, for
every key value, the last row in input order that carries it. -/
def dedupeByKey {α κ : Type} [DecidableEq κ] (key : α → κ) : List α → List α
  | [] => []
  | x :: xs =>
      if key x ∈ xs.map key then dedupeByKey key xs
      else x :: dedupeByKey key xs

lemma dedupeByKey_filter {α κ : Type} [DecidableEq κ] (key : α → κ)
    (l : List α) (k : κ) :
    (dedupeByKey key l).filter (fun r => decide (key r = k)) =
      ((l.filter (fun r => decide (key r = k))).getLast?).toList := by
  induction l with
  | nil => simp [dedupeByKey]
  | cons x xs ih =>
      by_cases hdup : key x ∈ xs.map key
      · rw [dedupeByKey, if_pos hdup]
        by_cases hk : key x = k
        · have hne : xs.filter (fun r => decide (key r = k)) ≠ [] := by
            rcases List.mem_map.mp hdup with ⟨y, hy, hky⟩
            intro hnil
            have : y ∈ xs.filter (fun r => decide (key r = k)) := by
              simp [List.mem_filter, hy, hky, hk]
            simp [hnil] at this
          obtain ⟨y, ys, hys⟩ := List.exists_cons_of_ne_nil hne
          have hfil : (x :: xs).filter (fun r => decide (key r = k)) =
              x :: xs.filter (fun r => decide (key r = k)) := by
            simp [List.filter_cons, hk]
          rw [ih, hfil, hys, List.getLast?_cons_cons]
        · have hfil : (x :: xs).filter (fun r => decide (key r = k)) =
              xs.filter (fun r => decide (key r = k)) := by
            simp [List.filter_cons, hk]
          rw [hfil, ih]
      · rw [dedupeByKey, if_neg hdup]
        by_cases hk : key x = k
        · have hxs : xs.filter (fun r => decide (key r = k)) = [] := by
            rw [List.filter_eq_nil_iff]
            intro y hy
            simp only [decide_eq_true_eq]
            intro hky
            exact hdup (hk ▸ hky ▸ List.mem_map_of_mem key hy)
          have hded : (dedupeByKey key xs).filter
              (fun r => decide (key r = k)) = [] := by
            rw [ih, hxs]; rfl
          simp [List.filter_cons, hk, hded, hxs]
        · simp [List.filter_cons, hk, ih]

lemma dedupeByKey_countP {α κ : Type} [DecidableEq κ] (key : α → κ)
    (l : List α) (k : κ) :
    (dedupeByKey key l).countP (fun r => decide (key r = k)) =
      if k ∈ l.map key then 1 else 0 := by
  have h := dedupeByKey_filter key l k
  have hcount : (dedupeByKey key l).countP (fun r => decide (key r = k)) =
      ((l.filter (fun r => decide (key r = k))).getLast?).toList.length := by
    rw [← h, List.countP_eq_length_filter]
  rw [hcount]
  by_cases hk : k ∈ l.map key
  · rcases List.mem_map.mp hk with ⟨y, hy, hky⟩
    have hne : l.filter (fun r => decide (key r = k)) ≠ [] := by
      intro hnil
      have : y ∈ l.filter (fun r => decide (key r = k)) := by
        simp [List.mem_filter, hy, hky]
      simp [hnil] at this
    have hz := List.getLast?_eq_getLast_of_ne_nil hne
    rw [hz, if_pos hk]
    rfl
  · have hnil : l.filter (fun r => decide (key r = k)) = [] := by
      rw [List.filter_eq_nil_iff]
      intro y hy
      simp only [decide_eq_true_eq]
      intro hky
      exact hk (hky ▸ List.mem_map_of_mem key hy)
    simp [hk, hnil]

end Scouting

namespace Scouting

/-! ## Date parsing (`parse_date`, `calculate_age`, `map_player_position`)

`parse_date` strips the input and hands it to `dateutil.parser.parse`
with default settings, formatting the result as `%Y-%m-%d`; a
`ValueError` is caught and turned into null.  The dates this pipeline
feeds it are purely numeric dash- or slash-separated triples, so the
relevant fragment of `dateutil` is modelled below. -/

/-- Split a character list on a separator character. -/
def splitOnChar (sep : Char) : List Char → List (List Char)
  | [] => [[]]
  | c :: cs =>
      let rest := splitOnChar sep cs
      if c = sep then [] :: rest
      else match rest with
        | [] => [[c]]
        | p :: ps => (c :: p) :: ps

/-- Numeric value of a non-empty all-digit character list (`int(...)`);
`none` otherwise. -/
def digitsToNat? (cs : List Char) : Option Nat :=
  if cs ≠ [] ∧ cs.all Char.isDigit then
    some (cs.foldl (fun acc c => acc * 10 + (c.toNat - 48)) 0)
  else none

/-- Gregorian leap year. -/
def isLeap (y : Nat) : Bool := (y % 4 = 0 && y % 100 ≠ 0) || (y % 400 = 0)

/-- Days in a month of a given year. -/
def daysInMonth (y m : Nat) : Nat :=
  if m = 2 then (if isLeap y then 29 else 28)
  else if m = 4 ∨ m = 6 ∨ m = 9 ∨ m = 11 then 30
  else 31

/-- A (year, month, day) triple denotes a real calendar date. -/
def validYMD (y m d : Nat) : Bool :=
  1 ≤ m && m ≤ 12 && 1 ≤ d && d ≤ daysInMonth y m

/-- Strip ASCII whitespace from both ends (`str.strip`). -/
def stripChars (cs : List Char) : List Char :=
  ((cs.dropWhile Char.isWhitespace).reverse.dropWhile Char.isWhitespace).reverse

/-- Model of `dateutil.parser.parse` (default settings, i.e.
`dayfirst=False`) on the numeric dash/slash-separated dates this
pipeline produces: a leading 4-digit component is the year (then
month/day follow in order); otherwise, for `a/b/yyyy`, `a` is tried as
the **month** first and only if that fails as the day (dateutil's
documented default resolution).  Anything else, and any triple that is
not a real calendar date, raises `ValueError`, modelled as `none`. -/
def dateutilParse (cs : List Char) : Option (Nat × Nat × Nat) :=
  let parts := if cs.contains '-' then splitOnChar '-' cs else splitOnChar '/' cs
  match parts with
  | [a, b, c] =>
      match digitsToNat? a, digitsToNat? b, digitsToNat? c with
      | some x, some y, some z =>
          if a.length = 4 then
            if validYMD x y z then some (x, y, z) else none
          else if c.length = 4 then
            if validYMD z x y then some (z, x, y)
            else if validYMD z y x then some (z, y, x)
            else none
          else none
      | _, _, _ => none
  | _ => none

/-- Left-pad the decimal representation of `n` with zeros to width `w`
(`strftime` zero padding). -/
def padNum (w : Nat) (n : Nat) : String :=
  let s := toString n
  ⟨List.replicate (w - s.length) '0' ++ s.data⟩

/-- `datetime.strftime("%Y-%m-%d")`. -/
def formatYMD (d : Nat × Nat × Nat) : String :=
  padNum 4 d.1 ++ "-" ++ padNum 2 d.2.1 ++ "-" ++ padNum 2 d.2.2

/-- `transformation.parse_date`: null/empty input is null; otherwise the
stripped string is parsed by `dateutil` and reformatted as ISO
`YYYY-MM-DD`; a parse failure (`ValueError`) is caught and becomes null. -/
def parse_date : Option String → Option String
  | none => none
  | some s =>
      if s = "" then none
      else
        match dateutilParse (stripChars s.data) with
        | some d => some (formatYMD d)
        | none => none

/-- `datetime.strptime(_, "%Y-%m-%d")` as used by `calculate_age` on the
already-normalized date-of-birth column. -/
def strptimeYMD (s : String) : Option (Nat × Nat × Nat) :=
  match splitOnChar '-' s.data with
  | [a, b, c] =>
      match digitsToNat? a, digitsToNat? b, digitsToNat? c with
      | some y, some m, some d => if validYMD y m d then some (y, m, d) else none
      | _, _, _ => none
  | _ => none

/-- `transformation.calculate_age`: re-parse the date of birth, then
subtract years, minus one when the birthday has not yet occurred in the
processing year; any failure gives null. -/
def calculate_age (today : Nat × Nat × Nat) (date_of_birth : Option String) :
    Option Int :=
  match parse_date date_of_birth with
  | none => none
  | some iso =>
      match strptimeYMD iso with
      | none => none
      | some (y, m, d) =>
          some ((today.1 : Int) - (y : Int) -
            (if today.2.1 < m ∨ (today.2.1 = m ∧ today.2.2 < d) then 1 else 0))

/-- `transformation.map_player_position`: lower-case and map known
synonyms onto the four standard categories, defaulting to `"Unknown"`. -/
def map_player_position (position : Option String) : String :=
  match position with
  | none => "Unknown"
  | some p =>
      if p = "" then "Unknown"
      else
        let q : String := ⟨p.data.map Char.toLower⟩
        if q = "gk" ∨ q = "goalkeeper" then "Goalkeeper"
        else if q = "defender" ∨ q = "cb" ∨ q = "centre-back" then "Defender"
        else if q = "midfielder" ∨ q = "cm" ∨ q = "central midfielder" then
          "Midfielder"
        else if q = "forward" ∨ q = "striker" ∨ q = "st" then "Forward"
        else "Unknown"

/-! ## Entity rows and the five entity transforms -/

/-- A row of the raw/cleaned teams data. -/
structure Team where
  team_id : String
  name : String
  league : String
  stadium : String
  city : String
deriving DecidableEq, Repr

/-- A raw players row (nullable fields are `Option`). -/
structure PlayerRow where
  player_id : String
  name : String
  team_id : String
  position : Option String
  date_of_birth : Option String
  nationality : Option String
  market_value : Option Int
  contract_until : Option String
deriving DecidableEq, Repr

/-- A cleaned players row: normalized fields plus the derived `age`. -/
structure PlayerOut extends PlayerRow where
  age : Option Int
deriving DecidableEq, Repr

/-- A raw/cleaned matches row. -/
structure MatchRow where
  match_id : String
  competition : String
  season : String
  match_date : Option String
  home_team_id : String
  away_team_id : String
  home_score : Int
  away_score : Int
  venue : String
  attendance : Int
  referee : String
deriving DecidableEq, Repr

/-- A raw player-match-stats row (`xg`/`xa` are nullable floats). -/
structure PMStatRow where
  player_id : String
  match_id : String
  minutes_played : Int
  goals : Int
  assists : Int
  shots : Int
  shots_on_target : Int
  passes_attempted : Int
  passes_completed : Int
  key_passes : Int
  tackles : Int
  interceptions : Int
  duels_won : Int
  duels_lost : Int
  fouls_committed : Int
  yellow_cards : Int
  red_cards : Int
  xg : Option ℚ
  xa : Option ℚ
deriving DecidableEq, Repr

/-- A cleaned player-match-stats row with the two derived metrics. -/
structure PMStatOut extends PMStatRow where
  goal_contributions : Int
  g_xg : Option ℚ
deriving DecidableEq, Repr

/-- A raw/cleaned match-events row. -/
structure EventRow where
  event_id : String
  match_id : String
  minute : Int
  second : Int
  event_type : String
  player_id : String
  team_id : String
  x_start : ℚ
  y_start : ℚ
  x_end : Option ℚ
  y_end : Option ℚ
  outcome : String
  body_part : Option String
  pass_type : Option String
  recipient_id : Option String
deriving DecidableEq, Repr

/-- `transform_teams` body: only duplicate removal by `team_id`. -/
def transform_teams (rows : List Team) : List Team :=
  dedupeByKey Team.team_id rows

/-- `transform_players` body: normalize positions and the two date
columns, drop rows whose `team_id` is not a cleaned team key, dedupe by
`player_id` (keep last), then derive `age`. -/
def transform_players (today : Nat × Nat × Nat) (teamIds : List String)
    (rows : List PlayerRow) : List PlayerOut :=
  let normed := rows.map (fun r =>
    { r with
      position := some (map_player_position r.position)
      date_of_birth := parse_date r.date_of_birth
      contract_until := parse_date r.contract_until })
  let surviving := normed.filter (fun r => decide (r.team_id ∈ teamIds))
  let deduped := dedupeByKey PlayerRow.player_id surviving
  deduped.map (fun r =>
    { toPlayerRow := r, age := calculate_age today r.date_of_birth })

/-- `transform_matches` body: normalize `match_date`, dedupe by
`match_id` (keep last). -/
def transform_matches (rows : List MatchRow) : List MatchRow :=
  dedupeByKey MatchRow.match_id
    (rows.map (fun r => { r with match_date := parse_date r.match_date }))

/-- Referential filter of `transform_player_match_stats`:
`player_id.is_in(player_id_list) & match_id.is_in(match_id_list)`. -/
def filterStatOrphans (playerIds matchIds : List String)
    (rows : List PMStatRow) : List PMStatRow :=
  rows.filter (fun r =>
    decide (r.player_id ∈ playerIds) && decide (r.match_id ∈ matchIds))

/-- `when(xg < 0).then(None).otherwise(xg)`: a null condition (null
`xg`) selects the otherwise-branch, so nulls pass through. -/
def fixXgNeg (xg : Option ℚ) : Option ℚ :=
  match xg with
  | some v => if v < 0 then none else some v
  | none => none

/-- `when(xg > shots).then(None).otherwise(xg)`, applied after the
negativity fix. -/
def fixXgShots (shots : Int) (xg : Option ℚ) : Option ℚ :=
  match xg with
  | some v => if (shots : ℚ) < v then none else some v
  | none => none

/-- The two derived columns `goal_contributions = goals + assists` and
`g_xg = goals - xg` (null-propagating through `xg`). -/
def deriveStat (r : PMStatRow) : PMStatOut :=
  { toPMStatRow := r
    goal_contributions := r.goals + r.assists
    g_xg := r.xg.map (fun v => (r.goals : ℚ) - v) }

/-- `transform_player_match_stats` body: referential filter, the two
sequential xg fixes, dedupe by `(player_id, match_id)` (keep last), then
metric derivation — in that order. -/
def transform_player_match_stats (playerIds matchIds : List String)
    (rows : List PMStatRow) : List PMStatOut :=
  let filtered := filterStatOrphans playerIds matchIds rows
  let fixed := filtered.map (fun r =>
    { r with xg := fixXgShots r.shots (fixXgNeg r.xg) })
  let deduped := dedupeByKey (fun r => (r.player_id, r.match_id)) fixed
  deduped.map deriveStat

/-- Referential filter of `transform_match_events`:
`match_id.is_in(...) & team_id.is_in(...) & player_id.is_in(...)`. -/
def filterEventOrphans (matchIds teamIds playerIds : List String)
    (rows : List EventRow) : List EventRow :=
  rows.filter (fun r =>
    decide (r.match_id ∈ matchIds) && decide (r.team_id ∈ teamIds) &&
      decide (r.player_id ∈ playerIds))

/-- `transform_match_events` body: referential filter, then dedupe by
`event_id` (keep last). -/
def transform_match_events (matchIds teamIds playerIds : List String)
    (rows : List EventRow) : List EventRow :=
  dedupeByKey EventRow.event_id (filterEventOrphans matchIds teamIds playerIds rows)

lemma dedupeByKey_subset {α κ : Type} [DecidableEq κ] (key : α → κ)
    (l : List α) : ∀ x ∈ dedupeByKey key l, x ∈ l := by
  induction l with
  | nil => simp [dedupeByKey]
  | cons a as ih =>
      intro x hx
      rw [dedupeByKey] at hx
      by_cases h : key a ∈ as.map key
      · rw [if_pos h] at hx
        exact List.mem_cons_of_mem a (ih x hx)
      · rw [if_neg h] at hx
        rcases List.mem_cons.mp hx with h1 | h1
        · exact h1 ▸ List.mem_cons_self x as
        · exact List.mem_cons_of_mem a (ih x h1)

/-- C1 — For every key function and every input batch, deduplication keeps
exactly one row per key occurring in the input (zero for absent keys), and
the retained row for a key is the **last** row of the input that carries
it (`getLast?` of the rows with that key) — deterministic by input order,
no timestamp involved.  This is the dedup step of every entity transform
(`unique(subset=..., keep="last")`). -/
theorem dedupe_last_seen_wins {α κ : Type} [DecidableEq κ] (key : α → κ)
    (l : List α) (k : κ) :
    (dedupeByKey key l).filter (fun r => decide (key r = k)) =
        ((l.filter (fun r => decide (key r = k))).getLast?).toList ∧
      (dedupeByKey key l).countP (fun r => decide (key r = k)) =
        (if k ∈ l.map key then 1 else 0) :=
  ⟨dedupeByKey_filter key l k, dedupeByKey_countP key l k⟩

lemma mem_transform_pms {playerIds matchIds : List String}
    {rows : List PMStatRow} {o : PMStatOut}
    (ho : o ∈ transform_player_match_stats playerIds matchIds rows) :
    ∃ r ∈ filterStatOrphans playerIds matchIds rows,
      o = deriveStat { r with xg := fixXgShots r.shots (fixXgNeg r.xg) } := by
  rcases List.mem_map.mp ho with ⟨r', hr', rfl⟩
  have hr'' := dedupeByKey_subset _ _ r' hr'
  rcases List.mem_map.mp hr'' with ⟨r, hr, rfl⟩
  exact ⟨r, hr, rfl⟩

/-- C2 — A child row survives the referential filter iff **all** of its
foreign keys are members of the corresponding cleaned parent key sets
(`player_id` AND `match_id` for stats; `match_id` AND `team_id` AND
`player_id` for events): two iff characterizations of the filter steps,
plus: no row of the final transform output carries an unresolved FK. -/
theorem fk_filter_membership :
    (∀ (playerIds matchIds : List String) (rows : List PMStatRow)
        (r : PMStatRow),
        r ∈ filterStatOrphans playerIds matchIds rows ↔
          r ∈ rows ∧ r.player_id ∈ playerIds ∧ r.match_id ∈ matchIds) ∧
    (∀ (matchIds teamIds playerIds : List String) (rows : List EventRow)
        (e : EventRow),
        e ∈ filterEventOrphans matchIds teamIds playerIds rows ↔
          e ∈ rows ∧ e.match_id ∈ matchIds ∧ e.team_id ∈ teamIds ∧
            e.player_id ∈ playerIds) ∧
    (∀ (playerIds matchIds : List String) (rows : List PMStatRow)
        (o : PMStatOut),
        o ∈ transform_player_match_stats playerIds matchIds rows →
          o.player_id ∈ playerIds ∧ o.match_id ∈ matchIds) ∧
    (∀ (matchIds teamIds playerIds : List String) (rows : List EventRow)
        (e : EventRow),
        e ∈ transform_match_events matchIds teamIds playerIds rows →
          e.match_id ∈ matchIds ∧ e.team_id ∈ teamIds ∧
            e.player_id ∈ playerIds) := by
  refine ⟨?_, ?_, ?_, ?_⟩
  · intro playerIds matchIds rows r
    simp [filterStatOrphans, List.mem_filter, and_assoc]
  · intro matchIds teamIds playerIds rows e
    simp [filterEventOrphans, List.mem_filter, and_assoc]
  · intro playerIds matchIds rows o ho
    rcases mem_transform_pms ho with ⟨r, hr, rfl⟩
    have h := (List.mem_filter.mp hr).2
    simp only [Bool.and_eq_true, decide_eq_true_eq] at h
    simpa [deriveStat] using h
  · intro matchIds teamIds playerIds rows e he
    have he' := dedupeByKey_subset _ _ e he
    have h := (List.mem_filter.mp he').2
    simpa [Bool.and_eq_true, decide_eq_true_eq, and_assoc] using h

/-- A stats row like the test fixtures (all FKs resolving). -/
def statA : PMStatRow :=
  ⟨"P001", "M001", 90, 1, 1, 5, 3, 80, 75, 4, 1, 0, 8, 4, 1, 0, 0,
    some (mkRat 4 5), some (mkRat 1 2)⟩

/-- The scenario row with an invalid negative expected-goals value. -/
def statNegXg : PMStatRow := { statA with xg := some (mkRat (-3) 10) }

/-- A stats row whose `match_id` does not resolve. -/
def statOrphan : PMStatRow := { statA with match_id := "M999" }

/-- Witness for C2 at a concrete input: the fully-resolved row survives
the filter, and the row with an unresolved `match_id` does not. -/
theorem fk_filter_membership_witness :
    statA ∈ filterStatOrphans ["P001"] ["M001"] [statA, statOrphan] ∧
      statOrphan ∉ filterStatOrphans ["P001"] ["M001"] [statA, statOrphan] := by
  constructor
  · exact (fk_filter_membership.1 ["P001"] ["M001"] [statA, statOrphan]
      statA).mpr ⟨by decide, by decide, by decide⟩
  · intro h
    have := (fk_filter_membership.1 ["P001"] ["M001"] [statA, statOrphan]
      statOrphan).mp h
    revert this
    decide

lemma fixXg_bounds (shots : Int) (xg : Option ℚ) :
    fixXgShots shots (fixXgNeg xg) = none ∨
      ∃ v, fixXgShots shots (fixXgNeg xg) = some v ∧ 0 ≤ v ∧ v ≤ (shots : ℚ) := by
  rcases xg with _ | v
  · exact Or.inl rfl
  · by_cases hneg : v < 0
    · simp [fixXgNeg, hneg, fixXgShots]
    · by_cases hgt : (shots : ℚ) < v
      · simp [fixXgNeg, hneg, fixXgShots, hgt]
      · exact Or.inr ⟨v, by simp [fixXgNeg, hneg, fixXgShots, hgt],
          le_of_not_lt hneg, le_of_not_lt hgt⟩

/-- C3 — After metric derivation every output stats row has `xg` null or
within `[0, shots]` (out-of-range values were nulled, not clamped, by
the two sequential fixes), `g_xg = goals - xg` propagating null from
`xg`, and `goal_contributions = goals + assists`. -/
theorem stats_metric_derivation (playerIds matchIds : List String)
    (rows : List PMStatRow) (o : PMStatOut)
    (ho : o ∈ transform_player_match_stats playerIds matchIds rows) :
    (o.xg = none ∨ ∃ v, o.xg = some v ∧ 0 ≤ v ∧ v ≤ (o.shots : ℚ)) ∧
      o.g_xg = o.xg.map (fun v => (o.goals : ℚ) - v) ∧
      (o.xg = none → o.g_xg = none) ∧
      o.goal_contributions = o.goals + o.assists := by
  rcases mem_transform_pms ho with ⟨r, _, rfl⟩
  refine ⟨?_, ?_, ?_, ?_⟩
  · simpa [deriveStat] using fixXg_bounds r.shots r.xg
  · simp [deriveStat]
  · intro h
    simp only [deriveStat] at h ⊢
    simp [h]
  · simp [deriveStat]

/-- The concrete output row produced from `statNegXg`: the invalid
negative `xg` has been nulled. -/
def statNegXgOut : PMStatOut := deriveStat { statNegXg with xg := none }

/-- Witness for C3: on the spec scenario `xg = -0.3`, the transform
yields a row with `xg` and `g_xg` both null and the derived columns as
claimed. -/
theorem stats_metric_derivation_witness :
    (statNegXgOut.xg = none ∨
        ∃ v, statNegXgOut.xg = some v ∧ 0 ≤ v ∧ v ≤ (statNegXgOut.shots : ℚ)) ∧
      statNegXgOut.g_xg =
        statNegXgOut.xg.map (fun v => (statNegXgOut.goals : ℚ) - v) ∧
      (statNegXgOut.xg = none → statNegXgOut.g_xg = none) ∧
      statNegXgOut.goal_contributions = statNegXgOut.goals + statNegXgOut.assists :=
  stats_metric_derivation ["P001"] ["M001"] [statNegXg] statNegXgOut (by decide)

/-! ## `transform_all` orchestration

The raw `datasets` dictionary may lack an entity key, hold a
structurally empty (zero-column) lazy frame, or hold actual rows; the
three cases are distinguished because `transform_all` treats them
differently.  The guard for the players branch writes
`("teams" in transformed) & (len(transformed["teams"]) > 0)` with the
eager `&`, so the dictionary access is evaluated (raising `KeyError`)
even when the key test is false; the stats/events branches use
short-circuiting `and`.  Python exceptions escaping `transform_all` are
modelled by `Except.error`. -/

/-- One entry of the raw `datasets` dictionary. -/
inductive RawInput (α : Type) where
  | absent
  | noColumns
  | rows (l : List α)
deriving DecidableEq, Repr

/-- The `datasets` dictionary handed to `transform_all`. -/
structure Datasets where
  teams : RawInput Team
  players : RawInput PlayerRow
  matches' : RawInput MatchRow
  player_match_stats : RawInput PMStatRow
  match_events : RawInput EventRow

/-- The `transformed` dictionary built by `transform_all`; `none` means
the key was never inserted. -/
structure Transformed where
  teams : Option (List Team) := none
  players : Option (List PlayerOut) := none
  matches' : Option (List MatchRow) := none
  player_match_stats : Option (List PMStatOut) := none
  match_events : Option (List EventRow) := none
deriving DecidableEq, Repr

/-- `(name in datasets) & (datasets[name].count().collect().shape[1] > 0)`
with the eager `&`: the subscript is evaluated even when the key test is
false, so a missing key raises `KeyError`. -/
def inAndHasCols {α : Type} (name : String) : RawInput α → Except String Bool
  | .absent => .error ("KeyError: " ++ name)
  | .noColumns => .ok false
  | .rows _ => .ok true

/-- `(name in datasets) and (datasets[name]...shape[1] > 0)` with the
short-circuiting `and`: a missing key just yields `False`. -/
def presentWithCols {α : Type} : RawInput α → Bool
  | .rows _ => true
  | _ => false

/-- The row list of a dataset entry (only read on branches that already
established the entry is `rows`). -/
def rowsOf {α : Type} : RawInput α → List α
  | .rows l => l
  | _ => []

/-- `transform_all`, with the processing date for the age derivation
made explicit.  The guard structure (eager `&` for the teams/players
dataset lookups and for the `transformed["teams"]` lookup,
short-circuiting `and` for the stats/events chains) follows the source
line by line. -/
def transform_all (today : Nat × Nat × Nat) (d : Datasets) :
    Except String Transformed := do
  let t : Transformed := {}
  let cteams ← inAndHasCols "teams" d.teams
  let t := if cteams then
      { t with teams := some (transform_teams (rowsOf d.teams)) } else t
  let cplayers ← inAndHasCols "players" d.players
  let t ←
    if cplayers then
      match t.teams with
      | none => Except.error "KeyError: teams"
      | some ts =>
          if ts.length > 0 then
            pure { t with players := some (transform_players today
              (ts.map Team.team_id) (rowsOf d.players)) }
          else pure t
    else pure t
  let t := if presentWithCols d.matches' then
      { t with matches' := some (transform_matches (rowsOf d.matches')) } else t
  let t :=
    if presentWithCols d.player_match_stats then
      match t.players, t.matches' with
      | some ps, some ms =>
          if ps.length > 0 && ms.length > 0 then
            { t with
                player_match_stats := some (transform_player_match_stats
                  (ps.map (fun p => p.player_id))
                  (ms.map MatchRow.match_id)
                  (rowsOf d.player_match_stats)) }
          else t
      | _, _ => t
    else t
  let t :=
    if presentWithCols d.match_events then
      match t.matches', t.teams, t.players with
      | some ms, some ts, some ps =>
          if ms.length > 0 && ts.length > 0 && ps.length > 0 then
            { t with
                match_events := some (transform_match_events
                  (ms.map MatchRow.match_id)
                  (ts.map Team.team_id)
                  (ps.map (fun p => p.player_id))
                  (rowsOf d.match_events)) }
          else t
      | _, _, _ => t
    else t
  pure t

/-- C5 — When an upstream parent transform runs and produces zero
cleaned rows, `transform_all` skips every dependent child transform (the
child key is never inserted into the result) and returns normally, in
all three cited scenarios: teams cleaned to zero rows with players
non-empty, and players (resp. matches) cleaned to zero rows with
stats/events non-empty. -/
theorem transform_all_skips_children_of_empty_parent
    (today : Nat × Nat × Nat) (tl : List Team) (pl : List PlayerRow)
    (ml : List MatchRow) (sl : List PMStatRow) (el : List EventRow) :
    (∃ t, transform_all today ⟨.rows [], .rows pl, .rows ml, .rows sl, .rows el⟩ =
        .ok t ∧ t.players = none ∧ t.player_match_stats = none ∧
          t.match_events = none) ∧
    (∃ t, transform_all today ⟨.rows tl, .rows [], .rows ml, .rows sl, .rows el⟩ =
        .ok t ∧ t.player_match_stats = none ∧ t.match_events = none) ∧
    (∃ t, transform_all today ⟨.rows tl, .rows pl, .rows [], .rows sl, .rows el⟩ =
        .ok t ∧ t.player_match_stats = none ∧ t.match_events = none) := by
  refine ⟨?_, ?_, ?_⟩
  · refine ⟨⟨some [], none, some (transform_matches ml), none, none⟩,
      ?_, rfl, rfl, rfl⟩
    simp [transform_all, inAndHasCols, rowsOf, presentWithCols, bind,
      Except.bind, pure, Except.pure, transform_teams, dedupeByKey]
  · cases htl : transform_teams tl with
    | nil =>
        refine ⟨⟨some [], none, some (transform_matches ml), none, none⟩,
          ?_, rfl, rfl⟩
        simp [transform_all, inAndHasCols, rowsOf, presentWithCols, bind,
          Except.bind, pure, Except.pure, htl]
    | cons a as =>
        refine ⟨⟨some (a :: as), some [], some (transform_matches ml),
          none, none⟩, ?_, rfl, rfl⟩
        simp [transform_all, inAndHasCols, rowsOf, presentWithCols, bind,
          Except.bind, pure, Except.pure, htl, transform_players, dedupeByKey]
  · cases htl : transform_teams tl with
    | nil =>
        refine ⟨⟨some [], none, some [], none, none⟩, ?_, rfl, rfl⟩
        simp [transform_all, inAndHasCols, rowsOf, presentWithCols, bind,
          Except.bind, pure, Except.pure, htl, transform_matches, dedupeByKey]
    | cons a as =>
        refine ⟨⟨some (a :: as),
          some (transform_players today ((a :: as).map Team.team_id) pl),
          some [], none, none⟩, ?_, rfl, rfl⟩
        simp [transform_all, inAndHasCols, rowsOf, presentWithCols, bind,
          Except.bind, pure, Except.pure, htl, transform_matches, dedupeByKey]

/-! ## Persistence (`save_data_to_db`)

A DuckDB table is modelled by its lookup function `key → Option row`; a
table that has not been created yet is `none`.  For each non-empty
dataset the source either creates the table and inserts the rows, or
runs `INSERT OR REPLACE` (insert-or-replace by primary key) — both
amount to folding insert-or-replace over the rows in order. -/

/-- `INSERT OR REPLACE INTO table SELECT * FROM temp`: insert the rows
in order, each replacing any previous row with the same primary key. -/
def upsertAll {κ ρ : Type} [DecidableEq κ] (key : ρ → κ) (rows : List ρ)
    (tbl : κ → Option ρ) : κ → Option ρ :=
  rows.foldl (fun t r => Function.update t (key r) (some r)) tbl

/-- Persisting one dataset: empty datasets are skipped entirely; a
missing table is created empty and then inserted into; an existing
table is upserted. -/
def saveTable {κ ρ : Type} [DecidableEq κ] (key : ρ → κ) (rows : List ρ) :
    Option (κ → Option ρ) → Option (κ → Option ρ)
  | tbl =>
      if rows.isEmpty then tbl
      else
        match tbl with
        | some t => some (upsertAll key rows t)
        | none => some (upsertAll key rows (fun _ => none))

/-- The five per-entity tables of `scouting.duckdb`. -/
structure Database where
  dim_teams : Option (String → Option Team) := none
  dim_players : Option (String → Option PlayerOut) := none
  dim_matches : Option (String → Option MatchRow) := none
  fact_player_match_stats : Option (String × String → Option PMStatOut) := none
  fact_match_events : Option (String → Option EventRow) := none

/-- `save_data_to_db`: iterate over the keys present in the transformed
dictionary, skipping empty datasets and upserting the rest by natural
key. -/
def save_data_to_db (t : Transformed) (db : Database) : Database :=
  { dim_teams :=
      match t.teams with
      | some rows => saveTable Team.team_id rows db.dim_teams
      | none => db.dim_teams
    dim_players :=
      match t.players with
      | some rows => saveTable (fun p => p.player_id) rows db.dim_players
      | none => db.dim_players
    dim_matches :=
      match t.matches' with
      | some rows => saveTable MatchRow.match_id rows db.dim_matches
      | none => db.dim_matches
    fact_player_match_stats :=
      match t.player_match_stats with
      | some rows => saveTable (fun r => (r.player_id, r.match_id)) rows
          db.fact_player_match_stats
      | none => db.fact_player_match_stats
    fact_match_events :=
      match t.match_events with
      | some rows => saveTable EventRow.event_id rows db.fact_match_events
      | none => db.fact_match_events }

/-- One full pipeline run (`transformation.main`): transform the raw
datasets and persist the result; an exception escaping the transform
step is caught by the top-level handler, so nothing is persisted. -/
def run_pipeline (today : Nat × Nat × Nat) (d : Datasets) (db : Database) :
    Database :=
  match transform_all today d with
  | .ok t => save_data_to_db t db
  | .error _ => db

lemma upsertAll_apply {κ ρ : Type} [DecidableEq κ] (key : ρ → κ)
    (rows : List ρ) : ∀ (tbl : κ → Option ρ) (k : κ),
    upsertAll key rows tbl k =
      match (rows.filter (fun r => decide (key r = k))).getLast? with
      | some r => some r
      | none => tbl k := by
  induction rows with
  | nil => intro tbl k; rfl
  | cons r rs ih =>
      intro tbl k
      have hstep : upsertAll key (r :: rs) tbl =
          upsertAll key rs (Function.update tbl (key r) (some r)) := rfl
      rw [hstep, ih]
      by_cases hk : key r = k
      · subst hk
        rcases hrs : rs.filter (fun x => decide (key x = key r)) with _ | ⟨y, ys⟩
        · have h1 : (r :: rs).filter (fun x => decide (key x = key r)) = [r] := by
            simp [List.filter_cons, hrs]
          rw [h1]
          simp [Function.update_same]
        · have h1 : (r :: rs).filter (fun x => decide (key x = key r)) =
              r :: y :: ys := by
            simp [List.filter_cons, hrs]
          rw [h1, List.getLast?_cons_cons,
            List.getLast?_eq_getLast_of_ne_nil (List.cons_ne_nil y ys)]
      · have h1 : (r :: rs).filter (fun x => decide (key x = k)) =
            rs.filter (fun x => decide (key x = k)) := by
          simp [List.filter_cons, hk]
        rw [h1]
        rcases hrs : (rs.filter (fun x => decide (key x = k))).getLast? with _ | y
        · have hne : k ≠ key r := fun h => hk h.symm
          simp [Function.update_noteq hne]
        · rfl

lemma upsertAll_idem {κ ρ : Type} [DecidableEq κ] (key : ρ → κ)
    (rows : List ρ) (tbl : κ → Option ρ) :
    upsertAll key rows (upsertAll key rows tbl) = upsertAll key rows tbl := by
  funext k
  rw [upsertAll_apply, upsertAll_apply]
  rcases hrs : (rows.filter (fun r => decide (key r = k))).getLast? with _ | r
  · rfl
  · rfl

lemma saveTable_idem {κ ρ : Type} [DecidableEq κ] (key : ρ → κ)
    (rows : List ρ) (tbl : Option (κ → Option ρ)) :
    saveTable key rows (saveTable key rows tbl) = saveTable key rows tbl := by
  by_cases hrows : rows.isEmpty
  · simp [saveTable, hrows]
  · rcases tbl with _ | t
    · simp [saveTable, hrows, upsertAll_idem]
    · simp [saveTable, hrows, upsertAll_idem]

/-- C9 — Persistence is an upsert by natural key, so running the full
transform-then-persist pipeline twice on identical raw input leaves the
same persisted state as running it once; likewise `save_data_to_db`
itself is idempotent on every entity table. -/
theorem pipeline_idempotent (today : Nat × Nat × Nat) (d : Datasets)
    (db : Database) (t : Transformed) :
    run_pipeline today d (run_pipeline today d db) = run_pipeline today d db ∧
      save_data_to_db t (save_data_to_db t db) = save_data_to_db t db := by
  have hsave : ∀ (t' : Transformed) (db' : Database),
      save_data_to_db t' (save_data_to_db t' db') = save_data_to_db t' db' := by
    intro t' db'
    unfold save_data_to_db
    rcases t' with ⟨ts, ps, ms, ss, es⟩
    rcases ts with _ | ts <;> rcases ps with _ | ps <;>
      rcases ms with _ | ms <;> rcases ss with _ | ss <;>
      rcases es with _ | es <;>
      simp [saveTable_idem]
  constructor
  · unfold run_pipeline
    rcases htr : transform_all today d with e | tr
    · rfl
    · exact hsave tr db
  · exact hsave t db

/-! ## `parse_date` behaviour on ambiguous dates (C6)

`parse_date` delegates to the heuristic `dateutil.parser.parse` with
default settings rather than trying a fixed day-first format list, so
the ambiguous `"03/04/2005"` is read month-first as 2005-03-04. -/

/-- C6 counterexample — the ambiguous date `03/04/2005` is parsed
**month-first** (March 4) by `parse_date`, not day-first (April 3) as
the claim states. -/
theorem parse_date_ambiguous_not_day_first :
    parse_date (some "03/04/2005") = some "2005-03-04" ∧
      parse_date (some "03/04/2005") ≠ some "2005-04-03" := by
  exact ⟨by decide, by decide⟩

/-- C6 (amended) — `parse_date` uses a heuristic parser, not a fixed
day-first format list: ISO and year-first dates parse as such, an
unambiguous `15/01/2023` parses day-first, but the ambiguous
`03/04/2005` is read **month-first**; `None`, the empty string, and any
unparseable input give null (the `ValueError` is caught; the function
never raises). -/
theorem parse_date_heuristic_month_first :
    parse_date none = none ∧
      parse_date (some "") = none ∧
      parse_date (some "2023-01-15") = some "2023-01-15" ∧
      parse_date (some "2023/01/15") = some "2023-01-15" ∧
      parse_date (some "15/01/2023") = some "2023-01-15" ∧
      parse_date (some "03/04/2005") = some "2005-03-04" ∧
      parse_date (some "invalid-date") = none ∧
      parse_date (some "2023-13-45") = none ∧
      (∀ s : String, dateutilParse (stripChars s.data) = none →
        parse_date (some s) = none) := by
  refine ⟨rfl, by decide, by decide, by decide, by decide, by decide,
    by decide, by decide, ?_⟩
  intro s h
  by_cases hs : s = ""
  · simp [parse_date, hs]
  · simp [parse_date, hs, h]

/-- Witness for C6 at a concrete unparseable input. -/
theorem parse_date_heuristic_month_first_witness :
    parse_date (some "not a date") = none :=
  parse_date_heuristic_month_first.2.2.2.2.2.2.2.2 "not a date" (by decide)

/-! ## Player aggregation (`create_player_aggregated_view`) (C4)

The polars variant groups `fact_player_match_stats` by `player_id`, sums
every counting stat, then derives per-90 rates and accuracy ratios with
`when(cond).then(expr).otherwise(None).round(2)`; the SQL variant
(`agg_players_query`) computes the identical
`ROUND(CASE WHEN cond THEN expr ELSE NULL END, 2)` expressions.  polars
sums skip nulls, so `xg`/`xa`/`g_xg` sums are plain rationals.  The
three-valued when/then/otherwise plumbing is modelled explicitly. -/

/-- polars `>` on nullable columns: null if either side is null. -/
def plGt (a b : Option ℚ) : Option Bool :=
  match a, b with
  | some x, some y => some (decide (y < x))
  | _, _ => none

/-- polars `when(c).then(t).otherwise(e)`: a null condition selects the
otherwise-branch. -/
def plWhen (c : Option Bool) (t e : Option ℚ) : Option ℚ :=
  match c with
  | some true => t
  | _ => e

/-- Round to 2 decimals (`round(2)` / SQL `ROUND(_, 2)`). -/
def roundQ2 (q : ℚ) : ℚ := (round (q * 100) : ℚ) / 100

/-- `round(2)` lifted over a nullable column (null stays null). -/
def plRound2 (x : Option ℚ) : Option ℚ := x.map roundQ2

/-- One per-90 column: `when(minutes > 0).then(metric / minutes * 90)
.otherwise(None).round(2)`. -/
def per90 (metric minutes : ℚ) : Option ℚ :=
  plRound2 (plWhen (plGt (some minutes) (some 0))
    (some (metric / minutes * 90)) none)

/-- One accuracy-ratio column: `when(den > 0).then(num / den)
.otherwise(None).round(2)`. -/
def ratio (num den : ℚ) : Option ℚ :=
  plRound2 (plWhen (plGt (some den) (some 0)) (some (num / den)) none)

/-- Sum of an integer stat column over a player's match rows. -/
def sumInt (f : PMStatOut → Int) (rows : List PMStatOut) : Int :=
  (rows.map f).sum

/-- Sum of a nullable stat column (polars sums skip nulls and give 0 on
all-null). -/
def sumOpt (f : PMStatOut → Option ℚ) (rows : List PMStatOut) : ℚ :=
  (rows.filterMap f).sum

/-- One player's row of the aggregated view: the summed counting stats
and the seventeen derived per-90 / accuracy columns. -/
structure PlayerAgg where
  goals : Int
  assists : Int
  minutes_played : Int
  shots : Int
  shots_on_target : Int
  passes_attempted : Int
  passes_completed : Int
  key_passes : Int
  tackles : Int
  interceptions : Int
  duels_won : Int
  duels_lost : Int
  fouls_committed : Int
  yellow_cards : Int
  red_cards : Int
  xg : ℚ
  xa : ℚ
  goal_contribution : Int
  g_xg : ℚ
  goals_90 : Option ℚ
  assists_90 : Option ℚ
  shot_accuracy : Option ℚ
  passes_attempted_90 : Option ℚ
  passes_completed_90 : Option ℚ
  key_passes_90 : Option ℚ
  pass_accuracy : Option ℚ
  tackles_90 : Option ℚ
  interceptions_90 : Option ℚ
  duel_win_rate : Option ℚ
  fouls_90 : Option ℚ
  yellow_cards_90 : Option ℚ
  red_cards_90 : Option ℚ
  xg_90 : Option ℚ
  xa_90 : Option ℚ
  goal_contribution_90 : Option ℚ
  g_xg_90 : Option ℚ

/-- `create_player_aggregated_view` for one player's group of match
rows: the sums and, from them, the derived columns. -/
def create_player_aggregated_view (rows : List PMStatOut) : PlayerAgg :=
  let m : ℚ := (sumInt (fun r => r.minutes_played) rows : ℚ)
  { goals := sumInt (fun r => r.goals) rows
    assists := sumInt (fun r => r.assists) rows
    minutes_played := sumInt (fun r => r.minutes_played) rows
    shots := sumInt (fun r => r.shots) rows
    shots_on_target := sumInt (fun r => r.shots_on_target) rows
    passes_attempted := sumInt (fun r => r.passes_attempted) rows
    passes_completed := sumInt (fun r => r.passes_completed) rows
    key_passes := sumInt (fun r => r.key_passes) rows
    tackles := sumInt (fun r => r.tackles) rows
    interceptions := sumInt (fun r => r.interceptions) rows
    duels_won := sumInt (fun r => r.duels_won) rows
    duels_lost := sumInt (fun r => r.duels_lost) rows
    fouls_committed := sumInt (fun r => r.fouls_committed) rows
    yellow_cards := sumInt (fun r => r.yellow_cards) rows
    red_cards := sumInt (fun r => r.red_cards) rows
    xg := sumOpt (fun r => r.xg) rows
    xa := sumOpt (fun r => r.xa) rows
    goal_contribution := sumInt (fun r => r.goal_contributions) rows
    g_xg := sumOpt (fun r => r.g_xg) rows
    goals_90 := per90 (sumInt (fun r => r.goals) rows : ℚ) m
    assists_90 := per90 (sumInt (fun r => r.assists) rows : ℚ) m
    shot_accuracy := ratio (sumInt (fun r => r.shots_on_target) rows : ℚ)
      (sumInt (fun r => r.shots) rows : ℚ)
    passes_attempted_90 := per90 (sumInt (fun r => r.passes_attempted) rows : ℚ) m
    passes_completed_90 := per90 (sumInt (fun r => r.passes_completed) rows : ℚ) m
    key_passes_90 := per90 (sumInt (fun r => r.key_passes) rows : ℚ) m
    pass_accuracy := ratio (sumInt (fun r => r.passes_completed) rows : ℚ)
      (sumInt (fun r => r.passes_attempted) rows : ℚ)
    tackles_90 := per90 (sumInt (fun r => r.tackles) rows : ℚ) m
    interceptions_90 := per90 (sumInt (fun r => r.interceptions) rows : ℚ) m
    duel_win_rate := ratio (sumInt (fun r => r.duels_won) rows : ℚ)
      ((sumInt (fun r => r.duels_won) rows : ℚ) +
        (sumInt (fun r => r.duels_lost) rows : ℚ))
    fouls_90 := per90 (sumInt (fun r => r.fouls_committed) rows : ℚ) m
    yellow_cards_90 := per90 (sumInt (fun r => r.yellow_cards) rows : ℚ) m
    red_cards_90 := per90 (sumInt (fun r => r.red_cards) rows : ℚ) m
    xg_90 := per90 (sumOpt (fun r => r.xg) rows) m
    xa_90 := per90 (sumOpt (fun r => r.xa) rows) m
    goal_contribution_90 := per90 (sumInt (fun r => r.goal_contributions) rows : ℚ) m
    g_xg_90 := per90 (sumOpt (fun r => r.g_xg) rows) m }

lemma per90_eq (x y : ℚ) :
    per90 x y = if 0 < y then some (roundQ2 (x / y * 90)) else none := by
  by_cases h : 0 < y <;> simp [per90, plRound2, plWhen, plGt, h]

lemma ratio_eq (x y : ℚ) :
    ratio x y = if 0 < y then some (roundQ2 (x / y)) else none := by
  by_cases h : 0 < y <;> simp [ratio, plRound2, plWhen, plGt, h]

/-- C4 — Every per-90 column of the player aggregate equals
`sum(metric) / sum(minutes_played) * 90` rounded to 2 decimals and is
null — not zero, not an error, not infinity — exactly when the minutes
sum is not positive (in particular when it is 0); every accuracy ratio
equals `numerator_sum / denominator_sum` rounded to 2 decimals and is
null when its denominator sum is 0. -/
theorem aggregate_per90_null_policy (rows : List PMStatOut) :
    let a := create_player_aggregated_view rows
    let m : ℚ := (a.minutes_played : ℚ)
    a.goals_90 = (if 0 < m then some (roundQ2 ((a.goals : ℚ) / m * 90)) else none) ∧
    a.assists_90 = (if 0 < m then some (roundQ2 ((a.assists : ℚ) / m * 90)) else none) ∧
    a.shot_accuracy = (if 0 < (a.shots : ℚ) then
      some (roundQ2 ((a.shots_on_target : ℚ) / (a.shots : ℚ))) else none) ∧
    a.passes_attempted_90 = (if 0 < m then
      some (roundQ2 ((a.passes_attempted : ℚ) / m * 90)) else none) ∧
    a.passes_completed_90 = (if 0 < m then
      some (roundQ2 ((a.passes_completed : ℚ) / m * 90)) else none) ∧
    a.key_passes_90 = (if 0 < m then
      some (roundQ2 ((a.key_passes : ℚ) / m * 90)) else none) ∧
    a.pass_accuracy = (if 0 < (a.passes_attempted : ℚ) then
      some (roundQ2 ((a.passes_completed : ℚ) / (a.passes_attempted : ℚ)))
      else none) ∧
    a.tackles_90 = (if 0 < m then
      some (roundQ2 ((a.tackles : ℚ) / m * 90)) else none) ∧
    a.interceptions_90 = (if 0 < m then
      some (roundQ2 ((a.interceptions : ℚ) / m * 90)) else none) ∧
    a.duel_win_rate = (if 0 < (a.duels_won : ℚ) + (a.duels_lost : ℚ) then
      some (roundQ2 ((a.duels_won : ℚ) /
        ((a.duels_won : ℚ) + (a.duels_lost : ℚ)))) else none) ∧
    a.fouls_90 = (if 0 < m then
      some (roundQ2 ((a.fouls_committed : ℚ) / m * 90)) else none) ∧
    a.yellow_cards_90 = (if 0 < m then
      some (roundQ2 ((a.yellow_cards : ℚ) / m * 90)) else none) ∧
    a.red_cards_90 = (if 0 < m then
      some (roundQ2 ((a.red_cards : ℚ) / m * 90)) else none) ∧
    a.xg_90 = (if 0 < m then some (roundQ2 (a.xg / m * 90)) else none) ∧
    a.xa_90 = (if 0 < m then some (roundQ2 (a.xa / m * 90)) else none) ∧
    a.goal_contribution_90 = (if 0 < m then
      some (roundQ2 ((a.goal_contribution : ℚ) / m * 90)) else none) ∧
    a.g_xg_90 = (if 0 < m then some (roundQ2 (a.g_xg / m * 90)) else none) :=
  ⟨per90_eq _ _, per90_eq _ _, ratio_eq _ _, per90_eq _ _, per90_eq _ _,
    per90_eq _ _, ratio_eq _ _, per90_eq _ _, per90_eq _ _, ratio_eq _ _,
    per90_eq _ _, per90_eq _ _, per90_eq _ _, per90_eq _ _, per90_eq _ _,
    per90_eq _ _, per90_eq _ _⟩

/-! ## Team top-3 ranking (`get_team_top3`) (C8)

Within one team, players are ranked by
`goal_contribution.rank("ordinal", descending=True).over("team_id")`
(SQL: `ROW_NUMBER() OVER (PARTITION BY team_id ORDER BY
goal_contribution DESC)`) and rows with rank ≤ 3 are kept.  A team's
players are modelled as a vector `v : Fin n → ℚ` of goal contributions
in input order; the ordinal rank of player `i` is one plus the number of
players strictly above it in the (value descending, input order
ascending) lexicographic order. -/

/-- Player `j` sorts strictly above player `i`: larger goal
contribution, or equal contribution and earlier input position. -/
def rankedAbove {n : ℕ} (v : Fin n → ℚ) (j i : Fin n) : Prop :=
  v i < v j ∨ (v j = v i ∧ j < i)

instance {n : ℕ} (v : Fin n → ℚ) (j i : Fin n) :
    Decidable (rankedAbove v j i) := by
  unfold rankedAbove
  infer_instance

/-- The ordinal (ties-broken-by-input-order) descending rank of player
`i`, as computed by `rank("ordinal", descending=True)` / `ROW_NUMBER()`. -/
def goalContribRank {n : ℕ} (v : Fin n → ℚ) (i : Fin n) : ℕ :=
  1 + (Finset.univ.filter (fun j => rankedAbove v j i)).card

/-- `get_team_top3` restricted to one team: the set of players whose
ordinal rank is at most 3. -/
def get_team_top3 {n : ℕ} (v : Fin n → ℚ) : Finset (Fin n) :=
  Finset.univ.filter (fun i => goalContribRank v i ≤ 3)

lemma rankedAbove_irrefl {n : ℕ} (v : Fin n → ℚ) (i : Fin n) :
    ¬ rankedAbove v i i := by
  simp [rankedAbove]

lemma rankedAbove_trans {n : ℕ} (v : Fin n → ℚ) {k j i : Fin n}
    (h1 : rankedAbove v k j) (h2 : rankedAbove v j i) :
    rankedAbove v k i := by
  rcases h1 with h1 | ⟨he1, hl1⟩ <;> rcases h2 with h2 | ⟨he2, hl2⟩
  · exact Or.inl (lt_trans h2 h1)
  · exact Or.inl (he2 ▸ h1)
  · exact Or.inl (he1 ▸ h2)
  · exact Or.inr ⟨he1.trans he2, hl1.trans hl2⟩

lemma rankedAbove_total {n : ℕ} (v : Fin n → ℚ) {i j : Fin n}
    (hne : i ≠ j) : rankedAbove v i j ∨ rankedAbove v j i := by
  rcases lt_trichotomy (v i) (v j) with h | h | h
  · exact Or.inr (Or.inl h)
  · rcases lt_or_gt_of_ne (Fin.val_ne_of_ne hne) with hij | hij
    · exact Or.inl (Or.inr ⟨h, hij⟩)
    · exact Or.inr (Or.inr ⟨h.symm, hij⟩)
  · exact Or.inl (Or.inl h)

lemma rank_lt_of_rankedAbove {n : ℕ} (v : Fin n → ℚ) {j i : Fin n}
    (h : rankedAbove v j i) :
    goalContribRank v j < goalContribRank v i := by
  unfold goalContribRank
  have hsub : Finset.univ.filter (fun k => rankedAbove v k j) ⊆
      Finset.univ.filter (fun k => rankedAbove v k i) := by
    intro k hk
    rw [Finset.mem_filter] at hk ⊢
    exact ⟨hk.1, rankedAbove_trans v hk.2 h⟩
  have hj : j ∈ Finset.univ.filter (fun k => rankedAbove v k i) := by
    rw [Finset.mem_filter]; exact ⟨Finset.mem_univ j, h⟩
  have hj' : j ∉ Finset.univ.filter (fun k => rankedAbove v k j) := by
    rw [Finset.mem_filter]
    exact fun hc => rankedAbove_irrefl v j hc.2
  have : (Finset.univ.filter (fun k => rankedAbove v k j)).card <
      (Finset.univ.filter (fun k => rankedAbove v k i)).card :=
    Finset.card_lt_card ((Finset.ssubset_iff_of_subset hsub).mpr ⟨j, hj, hj'⟩)
  omega

lemma goalContribRank_injective {n : ℕ} (v : Fin n → ℚ) :
    Function.Injective (goalContribRank v) := by
  intro i j hij
  by_contra hne
  rcases rankedAbove_total v hne with h | h
  · exact absurd hij (Nat.ne_of_gt (rank_lt_of_rankedAbove v h)).symm
  · exact absurd hij (Nat.ne_of_gt (rank_lt_of_rankedAbove v h))

lemma goalContribRank_bounds {n : ℕ} (v : Fin n → ℚ) (i : Fin n) :
    1 ≤ goalContribRank v i ∧ goalContribRank v i ≤ n := by
  constructor
  · exact Nat.le_add_right 1 _
  · unfold goalContribRank
    have hsub : Finset.univ.filter (fun j => rankedAbove v j i) ⊆
        Finset.univ.erase i := by
      intro k hk
      rw [Finset.mem_filter] at hk
      rw [Finset.mem_erase]
      exact ⟨fun hc => rankedAbove_irrefl v i (hc ▸ hk.2), Finset.mem_univ k⟩
    have h1 := Finset.card_le_card hsub
    have h2 : (Finset.univ.erase i).card = n - 1 := by
      rw [Finset.card_erase_of_mem (Finset.mem_univ i), Finset.card_univ,
        Fintype.card_fin]
    have hn : 1 ≤ n := Nat.one_le_iff_ne_zero.mpr
      (fun hz => (hz ▸ i).elim0)
    omega

lemma goalContribRank_image {n : ℕ} (v : Fin n → ℚ) :
    Finset.univ.image (goalContribRank v) = Finset.Icc 1 n := by
  apply Finset.eq_of_subset_of_card_le
  · intro r hr
    rcases Finset.mem_image.mp hr with ⟨i, _, rfl⟩
    rw [Finset.mem_Icc]
    exact goalContribRank_bounds v i
  · rw [Finset.card_image_of_injective _ (goalContribRank_injective v),
      Finset.card_univ, Fintype.card_fin, Nat.card_Icc]
    omega

lemma get_team_top3_card {n : ℕ} (v : Fin n → ℚ) :
    (get_team_top3 v).card = min 3 n := by
  unfold get_team_top3
  have h1 : (Finset.univ.filter (fun i => goalContribRank v i ≤ 3)).card =
      ((Finset.univ.filter (fun i => goalContribRank v i ≤ 3)).image
        (goalContribRank v)).card :=
    (Finset.card_image_of_injective _ (goalContribRank_injective v)).symm
  have h2 : (Finset.univ.filter (fun i => goalContribRank v i ≤ 3)).image
      (goalContribRank v) =
        (Finset.univ.image (goalContribRank v)).filter (fun r => r ≤ 3) := by
    ext r
    constructor
    · intro hr
      rcases Finset.mem_image.mp hr with ⟨i, hi, rfl⟩
      exact Finset.mem_filter.mpr
        ⟨Finset.mem_image.mpr ⟨i, Finset.mem_univ i, rfl⟩,
          (Finset.mem_filter.mp hi).2⟩
    · intro hr
      rcases Finset.mem_filter.mp hr with ⟨him, hle⟩
      rcases Finset.mem_image.mp him with ⟨i, _, rfl⟩
      exact Finset.mem_image.mpr
        ⟨i, Finset.mem_filter.mpr ⟨Finset.mem_univ i, hle⟩, rfl⟩
  rw [h1, h2, goalContribRank_image]
  have h3 : (Finset.Icc 1 n).filter (fun r => r ≤ 3) =
      Finset.Icc 1 (min n 3) := by
    ext r
    simp only [Finset.mem_filter, Finset.mem_Icc]
    omega
  rw [h3, Nat.card_Icc]
  omega

/-- C8 — Ordinal descending ranking by goal contribution within a team:
ranks are injective (equal values still get distinct sequential ranks —
ordinal, not dense), every rank lies in `[1, n]`, a strictly larger
contribution always ranks strictly better, ties are broken by input
order (the earlier row ranks better), and keeping `rank ≤ 3` retains
exactly `min 3 n` players. -/
theorem team_top3_ordinal_ranking {n : ℕ} (v : Fin n → ℚ) :
    Function.Injective (goalContribRank v) ∧
      (∀ i, 1 ≤ goalContribRank v i ∧ goalContribRank v i ≤ n) ∧
      (∀ i j, v j < v i → goalContribRank v i < goalContribRank v j) ∧
      (∀ i j, v i = v j → i < j →
        goalContribRank v i < goalContribRank v j) ∧
      (get_team_top3 v).card = min 3 n :=
  ⟨goalContribRank_injective v, goalContribRank_bounds v,
    fun _ _ h => rank_lt_of_rankedAbove v (Or.inl h),
    fun _ _ he hl => rank_lt_of_rankedAbove v (Or.inr ⟨he, hl⟩),
    get_team_top3_card v⟩

/-- Witness for C8 on the spec scenario: goal contributions
`[10, 10, 8, 5]` give the two tied players ordinal ranks 1 and 2 (not a
tied dense rank), then 3 and 4, and the top-3 filter keeps 3 players. -/
theorem team_top3_ordinal_ranking_witness :
    (get_team_top3 (![10, 10, 8, 5] : Fin 4 → ℚ)).card = min 3 4 ∧
      goalContribRank (![10, 10, 8, 5] : Fin 4 → ℚ) 0 <
        goalContribRank (![10, 10, 8, 5] : Fin 4 → ℚ) 1 :=
  ⟨(team_top3_ordinal_ranking (![10, 10, 8, 5] : Fin 4 → ℚ)).2.2.2.2,
    (team_top3_ordinal_ranking (![10, 10, 8, 5] : Fin 4 → ℚ)).2.2.2.1 0 1
      (by decide) (by decide)⟩

/-! ## `filter_players` with all-default arguments (C10)

Every `*_min` parameter of `filter_players` defaults to `0` (not
`None`), so with no caller-supplied filters the built expression is a
conjunction of `col >= 0` over all 37 numeric columns of `param_map`.
polars comparison with a null column gives null, and a filter drops
rows whose predicate is not `true`, so a row with any null metric column
is excluded.  An aggregate row's numeric columns are modelled as a
lookup `String → Option ℚ`. -/

/-- The keys of `param_map`, in source order. -/
def paramMapCols : List String :=
  ["age", "goals", "assists", "minutes_played", "shots",
   "shots_on_target", "passes_attempted", "passes_completed",
   "key_passes", "tackles", "interceptions", "duels_won", "duels_lost",
   "fouls_committed", "yellow_cards", "red_cards", "xg", "xa",
   "goal_contribution", "g_xg", "goals_90", "assists_90",
   "shot_accuracy", "passes_attempted_90", "passes_completed_90",
   "key_passes_90", "pass_accuracy", "tackles_90", "interceptions_90",
   "duel_win_rate", "fouls_90", "yellow_cards_90", "red_cards_90",
   "xg_90", "xa_90", "goal_contribution_90", "g_xg_90"]

/-- polars `col >= m` on a nullable column: null stays null. -/
def plGe (a : Option ℚ) (m : ℚ) : Option Bool :=
  a.map (fun v => decide (m ≤ v))

/-- polars `&` on nullable boolean columns (Kleene conjunction). -/
def plAnd : Option Bool → Option Bool → Option Bool
  | some false, _ => some false
  | _, some false => some false
  | some true, some true => some true
  | _, _ => none

/-- The filter expression built by `filter_players` from all-default
arguments: starting from Python `None`, each column with a non-`None`
minimum (here: all 37, at minimum 0) contributes a `col >= min`
conjunct. -/
def buildDefaultExpr (r : String → Option ℚ) : Option (Option Bool) :=
  paramMapCols.foldl (fun acc c =>
    match acc with
    | none => some (plGe (r c) 0)
    | some e => some (plAnd e (plGe (r c) 0))) none

/-- `filter_players(query_type="polars")` with all-default arguments:
when the built expression is Python `None` the full table is returned,
otherwise rows are kept exactly when the expression evaluates to
`true` (nulls drop the row). -/
def filter_players_default (rows : List (String → Option ℚ)) :
    List (String → Option ℚ) :=
  rows.filter (fun r =>
    match buildDefaultExpr r with
    | none => true
    | some e => decide (e = some true))

lemma plAnd_eq_some_true_iff : ∀ a b : Option Bool,
    plAnd a b = some true ↔ (a = some true ∧ b = some true) := by
  decide

lemma foldl_plAnd_eq_some_true (r : String → Option ℚ)
    (cols : List String) : ∀ e : Option Bool,
    (cols.foldl (fun e' c => plAnd e' (plGe (r c) 0)) e = some true ↔
      e = some true ∧ ∀ c ∈ cols, plGe (r c) 0 = some true) := by
  induction cols with
  | nil => intro e; simp
  | cons c cs ih =>
      intro e
      rw [List.foldl_cons, ih (plAnd e (plGe (r c) 0))]
      rw [plAnd_eq_some_true_iff]
      constructor
      · rintro ⟨⟨h1, h2⟩, h3⟩
        refine ⟨h1, fun x hx => ?_⟩
        rcases List.mem_cons.mp hx with rfl | hx'
        · exact h2
        · exact h3 x hx'
      · rintro ⟨h1, h2⟩
        exact ⟨⟨h1, h2 c (List.mem_cons_self c cs)⟩,
          fun x hx => h2 x (List.mem_cons_of_mem c hx)⟩

lemma build_go (r : String → Option ℚ) (cols : List String) :
    ∀ e : Option Bool,
    (cols.foldl (fun acc c =>
      match acc with
      | none => some (plGe (r c) 0)
      | some e' => some (plAnd e' (plGe (r c) 0))) (some e)) =
      some (cols.foldl (fun e' c => plAnd e' (plGe (r c) 0)) e) := by
  induction cols with
  | nil => intro e; rfl
  | cons c cs ih => intro e; rw [List.foldl_cons, List.foldl_cons]; exact ih _

lemma buildDefaultExpr_eq (r : String → Option ℚ) :
    buildDefaultExpr r =
      some ((paramMapCols.drop 1).foldl
        (fun e' c => plAnd e' (plGe (r c) 0)) (plGe (r "age") 0)) := by
  unfold buildDefaultExpr paramMapCols
  rw [List.foldl_cons]
  exact build_go r _ _

lemma plGe_eq_some_true_iff (a : Option ℚ) :
    plGe a 0 = some true ↔ ∃ v, a = some v ∧ 0 ≤ v := by
  rcases a with _ | v
  · simp [plGe]
  · simp [plGe]

/-- C10 — With all-default arguments `filter_players` does **not**
return the full aggregate table: a `>= 0` condition is applied to all 37
numeric `param_map` columns, and a row survives iff every one of those
columns is non-null and non-negative; in particular a row with a null in
any of the 37 columns (e.g. a player with no persisted match stats,
whose left-joined aggregate columns are all null) is always excluded. -/
theorem filter_players_default_drops_null_rows :
    (∀ r : String → Option ℚ, buildDefaultExpr r ≠ none) ∧
      (∀ (rows : List (String → Option ℚ)) (r : String → Option ℚ),
        r ∈ filter_players_default rows ↔
          r ∈ rows ∧ ∀ c ∈ paramMapCols, ∃ v, r c = some v ∧ 0 ≤ v) ∧
      (∀ (rows : List (String → Option ℚ)) (r : String → Option ℚ)
        (c : String), c ∈ paramMapCols → r c = none →
          r ∉ filter_players_default rows) := by
  have hkeep : ∀ r : String → Option ℚ,
      (match buildDefaultExpr r with
        | none => true
        | some e => decide (e = some true)) = true ↔
        ∀ c ∈ paramMapCols, ∃ v, r c = some v ∧ 0 ≤ v := by
    intro r
    rw [buildDefaultExpr_eq r]
    simp only [decide_eq_true_eq]
    rw [foldl_plAnd_eq_some_true]
    constructor
    · rintro ⟨h1, h2⟩ c hc
      have : plGe (r c) 0 = some true := by
        rcases List.mem_cons.mp hc with rfl | hc'
        · exact h1
        · exact h2 c hc'
      exact (plGe_eq_some_true_iff (r c)).mp this
    · intro h
      refine ⟨(plGe_eq_some_true_iff (r "age")).mpr
          (h "age" (by decide)), ?_⟩
      intro c hc
      exact (plGe_eq_some_true_iff (r c)).mpr
        (h c (List.mem_cons_of_mem _ hc))
  refine ⟨?_, ?_, ?_⟩
  · intro r
    rw [buildDefaultExpr_eq r]
    exact Option.some_ne_none _
  · intro rows r
    rw [filter_players_default, List.mem_filter, hkeep r]
  · intro rows r c hc hnull hmem
    rw [filter_players_default, List.mem_filter, hkeep r] at hmem
    rcases (hmem.2 c hc) with ⟨v, hv, _⟩
    rw [hnull] at hv
    exact Option.noConfusion hv

/-- An aggregate row for a player with no persisted match stats: every
left-joined numeric column is null. -/
def aggRowAllNull : String → Option ℚ := fun _ => none

/-- Witness for C10: the all-null left-join row is excluded from the
all-default filter output. -/
theorem filter_players_default_drops_null_rows_witness :
    aggRowAllNull ∉ filter_players_default [aggRowAllNull] :=
  filter_players_default_drops_null_rows.2.2 [aggRowAllNull] aggRowAllNull
    "minutes_played" (by decide) rfl

/-! ## Validation (`validation.validate_players`) (C7)

The pydantic `Player` model declares `date_of_birth: Optional[str]` but
its `validate_birth_date_format` validator calls
`datetime.strptime(value, format)` without a `None` guard (unlike the
`contract_until` validator, which has one).  `strptime(None, ...)`
raises `TypeError`, which pydantic v2 does not convert into a
`ValidationError`, and the per-row loop in `validate_players` catches
only `ValidationError` — so a null `date_of_birth` aborts the whole
batch instead of producing a per-row error entry. -/

/-- `datetime.strptime(s, "%Y-%m-%d")` succeeds. -/
def strptimeOkYMD (s : String) : Bool := (strptimeYMD s).isSome

/-- `datetime.strptime(s, "%d/%m/%Y")` succeeds. -/
def strptimeOkDMY (s : String) : Bool :=
  match splitOnChar '/' s.data with
  | [d, m, y] =>
      match digitsToNat? d, digitsToNat? m, digitsToNat? y with
      | some dv, some mv, some yv => validYMD yv mv dv
      | _, _, _ => false
  | _ => false

/-- A landing players row (every column may be null). -/
structure PlayerRawV where
  player_id : Option String
  name : Option String
  team_id : Option String
  position : Option String
  date_of_birth : Option String
  nationality : Option String
  market_value : Option ℚ
  contract_until : Option String
deriving DecidableEq, Repr

/-- Outcome of one pydantic validator: pass, a `ValueError` (converted
by pydantic into a `ValidationError` entry), or an uncaught exception
such as `TypeError`. -/
inductive VOut where
  | ok
  | valueError (msg : String)
  | typeError (msg : String)
deriving DecidableEq, Repr

/-- `Player.validate_birth_date_format`: tries the two formats, each
inside `try/except ValueError`; with `value = None`,
`strptime(None, "%Y-%m-%d")` raises `TypeError` on the first iteration,
which the `except ValueError` does not catch. -/
def validate_birth_date_format (value : Option String) : VOut :=
  match value with
  | none => .typeError "strptime() argument 1 must be str, not None"
  | some s =>
      if strptimeOkYMD s || strptimeOkDMY s then .ok
      else .valueError "Invalid date_of_birth format"

/-- `Player.validate_contract_until_date_format`: the loop body guards
`if value is not None`, so a null passes; an unparseable string raises
`ValueError`. -/
def validate_contract_until_date_format (value : Option String) : VOut :=
  match value with
  | none => .ok
  | some s =>
      if strptimeOkYMD s || strptimeOkDMY s then .ok
      else .valueError "Invalid contract_until format"

/-- `Player.validate_market_value`: negative values raise `ValueError`. -/
def validate_market_value (value : Option ℚ) : VOut :=
  match value with
  | some v => if v < 0 then .valueError "Market value cannot be negative"
      else .ok
  | none => .ok

/-- Outcome of `Player(**row)`. -/
inductive PyResult where
  | valid
  | validationError (msgs : List String)
  | uncaught (msg : String)
deriving DecidableEq, Repr

/-- `Player(**row)` under pydantic v2: the four required `str` fields
collect type errors, then the field validators run; a `ValueError`
becomes part of the `ValidationError`, while a `TypeError` escaping
`validate_birth_date_format` aborts the whole construction. -/
def runPlayerModel (r : PlayerRawV) : PyResult :=
  let coreErrs :=
    (if r.player_id = none then ["player_id: Input should be a valid string"]
     else []) ++
    (if r.name = none then ["name: Input should be a valid string"] else []) ++
    (if r.team_id = none then ["team_id: Input should be a valid string"]
     else []) ++
    (if r.position = none then ["position: Input should be a valid string"]
     else [])
  match validate_birth_date_format r.date_of_birth with
  | .typeError m => .uncaught m
  | vb =>
      let errs := coreErrs ++
        (match vb with | .valueError m => [m] | _ => []) ++
        (match validate_market_value r.market_value with
          | .valueError m => [m] | _ => []) ++
        (match validate_contract_until_date_format r.contract_until with
          | .valueError m => [m] | _ => [])
      if errs = [] then .valid else .validationError errs

/-- A per-column null-rate entry of the report. -/
structure NullCount where
  null_count : Nat
  null_percentage : ℚ
deriving DecidableEq, Repr

/-- The structured result dictionary of `validate_players`. -/
structure PlayersReport where
  total_rows : Nat
  valid_rows : Nat
  invalid_rows : Nat
  errors : List (Nat × Option String × List String)
  warnings : List String
  null_counts : List (String × NullCount)
deriving DecidableEq, Repr

/-- The per-row loop of `validate_players`: `try: Player(**row)` with
`except ValidationError` only — any other exception propagates. -/
def validatePlayersLoop (i valid invalid : Nat)
    (errs : List (Nat × Option String × List String)) :
    List PlayerRawV →
      Except String (Nat × Nat × List (Nat × Option String × List String))
  | [] => .ok (valid, invalid, errs)
  | r :: rest =>
      match runPlayerModel r with
      | .uncaught m => .error m
      | .valid => validatePlayersLoop (i + 1) (valid + 1) invalid errs rest
      | .validationError ms =>
          validatePlayersLoop (i + 1) valid (invalid + 1)
            (errs ++ [(i, r.player_id, ms)]) rest

/-- `validate_players`: empty-input short cut, dataset-level warnings
(orphans, duplicate keys, position labels) and null-rate statistics,
then the per-row loop.  An exception other than `ValidationError`
escaping the loop escapes `validate_players` itself. -/
def validate_players (rows : List PlayerRawV) (teamIds : List String) :
    Except String PlayersReport :=
  if rows.isEmpty then
    .ok { total_rows := 0, valid_rows := 0, invalid_rows := 0, errors := [],
          warnings := ["Players dataset is empty"], null_counts := [] }
  else
    let orphans := rows.filter (fun r =>
      match r.team_id with
      | some t => decide (t ∉ teamIds)
      | none => false)
    let ids := rows.map (fun r => r.player_id)
    let dupCount := (dedupeByKey (fun x => x) ids).countP
      (fun k => decide (1 < ids.countP (fun x => decide (x = k))))
    let posCount := (dedupeByKey (fun x => x)
      (rows.map (fun r => r.position))).length
    let warnings :=
      (if 0 < orphans.length then
        ["Found " ++ toString orphans.length ++ " orphaned team ids"]
       else []) ++
      (if 0 < dupCount then
        ["Found " ++ toString dupCount ++ " duplicate player ids"]
       else []) ++
      ["Found " ++ toString posCount ++ " different position labels"]
    let nullMarket := rows.countP (fun r => decide (r.market_value = none))
    let nullContract := rows.countP (fun r => decide (r.contract_until = none))
    let nullCounts :=
      [("market_value",
        ⟨nullMarket, (nullMarket : ℚ) / (rows.length : ℚ) * 100⟩),
       ("contract_until",
        ⟨nullContract, (nullContract : ℚ) / (rows.length : ℚ) * 100⟩)]
    match validatePlayersLoop 0 0 0 [] rows with
    | .error m => .error m
    | .ok (valid, invalid, errs) =>
        .ok { total_rows := rows.length, valid_rows := valid,
              invalid_rows := invalid, errors := errs,
              warnings := warnings, null_counts := nullCounts }

/-- A landing row whose optional `date_of_birth` is null (all other
required fields present). -/
def playerNullDob : PlayerRawV :=
  ⟨some "P001", some "Marcus Silva", some "T001", some "gk",
    none, none, none, none⟩

/-- The same row with an ill-formatted (non-null) `date_of_birth`. -/
def playerBadDob : PlayerRawV :=
  { playerNullDob with date_of_birth := some "invalid-date" }

/-- C7 (code bug) — `validate_players` on a batch containing a row with
a null `date_of_birth` does **not** return a diagnostic report: the
`TypeError` from `strptime(None, ...)` escapes the
`except ValidationError` handler and aborts the batch.  By contrast a
row with a merely ill-formatted `date_of_birth` takes the intended path:
the batch completes with a per-row error entry. -/
theorem validate_players_raises_on_null_birth_date :
    validate_players [playerNullDob] ["T001"] =
        .error "strptime() argument 1 must be str, not None" ∧
      (∃ rep, validate_players [playerBadDob] ["T001"] = .ok rep ∧
        rep.total_rows = 1 ∧ rep.valid_rows = 0 ∧ rep.invalid_rows = 1 ∧
        rep.errors.length = 1) := by
  constructor
  · rfl
  · exact ⟨_, rfl, rfl, rfl, rfl, rfl⟩

end Scouting
